import Mathlib

/-!
Shallow embedding of the RPN-calculator stack core of `rscalc`
(`src/stack.rs`: `Stack` and `render_entry`), together with theorems
checking the natural-language specification against it.

External collaborators (the arbitrary-precision `Number` formatting, the
`NumberEditor` keystroke grammar, font metrics and the drawing surface) are
not part of the core source; they are represented either as parameters
(fonts, formatting capabilities) or as minimal models taken from the spec's
description (the `NumberEditor`).  Drawing is embedded by emitting a list of
draw operations instead of mutating a screen.
-/

/-- Payload of the external decimal (floating-point) `Number` variant.
The stack core never inspects it; a single opaque integer field stands in
for the external big-decimal state. -/
structure Decimal where
  repr : Int
deriving DecidableEq

/-- The external `Number` value type: tagged integer / rational / decimal.
A rational carries a `BigInt` numerator and a `BigUint` denominator
(`denom.to_bigint()` is used by the source), embedded as `Int` and `Nat`. -/
inductive Number where
  | Integer (i : Int)
  | Rational (num : Int) (denom : Nat)
  | Decimal (d : Decimal)
deriving DecidableEq

/-- Modelled from the spec: the `NumberEditor` (`edit.rs`, not under `src/`)
is "a stateful digit/exponent/sign accumulator bound to one in-progress
entry" that "produces a NumberValue on demand".  Only the digit-accumulator
behaviour is needed by the claims, so the model holds the typed digits. -/
structure NumberEditor where
  digits : List Nat
deriving DecidableEq

/-- Modelled from the spec: `NumberEditor::new_decimal()` constructs an
editor in decimal mode with nothing typed yet. -/
def NumberEditor.new_decimal : NumberEditor := ⟨[]⟩

/-- Modelled from the spec: "read-current-value" — the accumulated digits
as an integer `Number`. -/
def NumberEditor.number (e : NumberEditor) : Number :=
  Number.Integer (e.digits.foldl (fun acc d => 10 * acc + (d : Int)) 0)

/-- Modelled from the spec: "push-character (reports whether a committed
value resulted)".  A decimal digit is accepted and appended; any other
character is rejected with no state change. -/
def NumberEditor.push_char (e : NumberEditor) (ch : Char) : Bool × NumberEditor :=
  if '0' ≤ ch ∧ ch ≤ '9' then
    (true, ⟨e.digits ++ [ch.toNat - '0'.toNat]⟩)
  else
    (false, e)

/-- Modelled from the spec: "push-backspace (reports whether content
remains)" — drop the most recently typed digit and report whether any
content is left. -/
def NumberEditor.backspace (e : NumberEditor) : Bool × NumberEditor :=
  let digits := e.digits.dropLast
  (!digits.isEmpty, ⟨digits⟩)

/-- External `NumberFormat` capability record (`number.rs`, out of scope).
The renderer only uses the flag fields and the five formatting
compositions below, so the derived formats `format.hex_format()` and
`format.decimal_format()` are flattened into the compositions the source
applies them to (`hex_format().format_number(v)`, etc.). -/
structure NumberFormat where
  show_alt_hex : Bool
  show_alt_float : Bool
  integer_radix : Nat
  format_number : Number → String
  format_bigint : Int → String
  hex_format_number : Number → String
  dec_format_number : Number → String
  dec_format_decimal : Decimal → String

/-- Modelled from the spec: "format-current-text-under(format)" — the
editor's in-progress textual form.  Its exact contents never matter to the
claims; the typed digits are concatenated. -/
def NumberEditor.to_str (e : NumberEditor) (_format : NumberFormat) : String :=
  e.digits.foldl (fun acc d => acc ++ toString d) ""

/-- External font capability: glyph height and string width measurement. -/
structure Font where
  height : Int
  width : String → Int

/-- Identifies which of the three fonts a draw call used. -/
inductive FontId where
  | sans16
  | sans20
  | sans24
deriving DecidableEq

/-- One drawing-surface call emitted by the renderer: a text draw at a
position, or a rectangle fill (`screen.fill`). -/
inductive DrawOp where
  | text (font : FontId) (x y : Int) (s : String)
  | fill (x y w h : Int)
deriving DecidableEq

/-- Constant `usize::MAX + 1 = 2^64`: the modulus of Rust's release-mode wrapping
subtraction on `usize`. -/
def USIZE : Nat := 18446744073709551616

/-- Wrapping (release-mode) subtraction on `usize`, for operands below
`2^64`. -/
def usizeSub (a b : Nat) : Nat := (a + (USIZE - b % USIZE)) % USIZE

/-- The stack state (`struct Stack`): entry storage in `Vec` order (index 0
is the oldest entry, the top is the last element), the optional live
editor, and the `push_new_entry` flag. -/
structure Stack where
  entries : List Number
  editor : Option NumberEditor
  push_new_entry : Bool
deriving DecidableEq

/-- Constructor `Stack::new()`: one zero entry, no editor, `push_new_entry = false`. -/
def Stack.new : Stack :=
  { entries := [Number.Integer 0], editor := none, push_new_entry := false }

/-- Entry count `Stack::len()`. -/
def Stack.len (s : Stack) : Nat := s.entries.length

/-- Operation `Stack::push`: append as new top, set `push_new_entry`, clear editor. -/
def Stack.push (s : Stack) (num : Number) : Stack :=
  { entries := s.entries ++ [num], editor := none, push_new_entry := true }

/-- Accessor `Stack::entry`: index the storage at `(len - 1) - idx` (reversed
logical index, wrapping `usize` arithmetic); an out-of-bounds `Vec` index
panics, embedded as `none`. -/
def Stack.entry (s : Stack) (idx : Nat) : Option Number :=
  s.entries.get? (usizeSub (usizeSub s.entries.length 1) idx)

/-- Accessor `Stack::entry_mut`, embedded as the write it is used for: store `num`
at storage position `(len - 1) - idx`; an out-of-bounds index panics,
embedded as `none`. -/
def Stack.entry_mut (s : Stack) (idx : Nat) (num : Number) : Option Stack :=
  let i := usizeSub (usizeSub s.entries.length 1) idx
  if i < s.entries.length then
    some { s with entries := s.entries.set i num }
  else
    none

/-- Accessor `Stack::top()` = `entry(0)`. -/
def Stack.top (s : Stack) : Option Number := s.entry 0

/-- Operation `Stack::set_top`: write through `top_mut` (= `entry_mut(0)`), then set
`push_new_entry` and clear the editor. -/
def Stack.set_top (s : Stack) (num : Number) : Option Stack :=
  (s.entry_mut 0 num).map fun s1 => { s1 with push_new_entry := true, editor := none }

/-- Operation `Stack::pop`: remove and return the last entry (`unwrap` of an empty
pop panics, embedded as `none`); if the storage became empty push a zero
entry back; set `push_new_entry`, clear editor. -/
def Stack.pop (s : Stack) : Option (Number × Stack) :=
  s.entries.getLast?.map fun result =>
    let entries := s.entries.dropLast
    let entries := if entries.length = 0 then entries ++ [Number.Integer 0] else entries
    (result, { entries := entries, editor := none, push_new_entry := true })

/-- The `for _ in 1..count { self.pop(); }` loop of `replace_entries`,
unrolled over the number of iterations. -/
def popLoop : Nat → Stack → Option Stack
  | 0, s => some s
  | n + 1, s => (s.pop).bind fun p => popLoop n p.2

/-- Operation `Stack::replace_entries`: pop `count - 1` entries (the `1..count`
range), then `set_top`, then (redundantly, as in the source) set
`push_new_entry` and clear the editor. -/
def Stack.replace_entries (s : Stack) (count : Nat) (num : Number) : Option Stack :=
  (popLoop (count - 1) s).bind fun s1 =>
    (s1.set_top num).map fun s2 => { s2 with push_new_entry := true, editor := none }

/-- Operation `Stack::enter`: push a clone of the top, then clear `push_new_entry`. -/
def Stack.enter (s : Stack) : Option Stack :=
  (s.top).map fun t => { s.push t with push_new_entry := false }

/-- Operation `Stack::push_char`: if no editor is active, start one (pushing a zero
entry when `push_new_entry` is set, otherwise overwriting the top with
zero) and clear `push_new_entry`; then feed the character to the editor
and, if it reports a committed value, write that value through `top_mut`. -/
def Stack.push_char (s : Stack) (ch : Char) : Option Stack :=
  let start : Option Stack :=
    match s.editor with
    | none =>
      let base := if s.push_new_entry then some (s.push (Number.Integer 0))
                  else s.set_top (Number.Integer 0)
      base.map fun b =>
        { b with editor := some NumberEditor.new_decimal, push_new_entry := false }
    | some _ => some s
  start.bind fun s1 =>
    match s1.editor with
    | some cur_editor =>
      let r := cur_editor.push_char ch
      if r.1 then
        (s1.entry_mut 0 r.2.number).map fun s2 => { s2 with editor := some r.2 }
      else
        some { s1 with editor := some r.2 }
    | none => some s1

/-- Recognizes an integer `Number` whose value is exactly zero (the only
kind of zero that suppresses `push_new_entry` after a backspace-pop). -/
def is_int_zero : Number → Bool
  | Number.Integer i => decide (i = 0)
  | _ => false

/-- Operation `Stack::backspace`: with an active editor, forward the backspace and
either refresh the top from the editor or (when the editor emptied) reset
the top to zero via `set_top` and clear `push_new_entry`; with no editor,
remember whether more than one entry existed, pop, and suppress
`push_new_entry` when the newly exposed top is an integer zero. -/
def Stack.backspace (s : Stack) : Option Stack :=
  match s.editor with
  | some cur_editor =>
    let r := cur_editor.backspace
    if r.1 then
      (s.entry_mut 0 r.2.number).map fun s2 => { s2 with editor := some r.2 }
    else
      (s.set_top (Number.Integer 0)).map fun s2 => { s2 with push_new_entry := false }
  | none =>
    let new_entry := decide (1 < s.entries.length)
    (s.pop).bind fun p =>
      (p.2.top).map fun t =>
        { p.2 with push_new_entry :=
            match t with
            | Number.Integer int => if int = 0 then false else new_entry
            | _ => new_entry }

/-- One user-level operation from the claim "push, pop, backspace, and
replace_entries (in any order, with any arguments)". -/
inductive Op where
  | push (num : Number)
  | pop
  | backspace
  | replace_entries (count : Nat) (num : Number)

/-- Apply one operation to a stack (panics embedded as `none`). -/
def stepOp : Op → Stack → Option Stack
  | Op.push n, s => some (s.push n)
  | Op.pop, s => (s.pop).map fun p => p.2
  | Op.backspace, s => s.backspace
  | Op.replace_entries c n, s => s.replace_entries c n

/-- Run a sequence of operations starting from `Stack::new()`. -/
def runOps (ops : List Op) : Option Stack :=
  ops.foldl (fun os op => os.bind (stepOp op)) (some Stack.new)

/-- The decomposition of a rational into the three strings of the fraction
layout (`render_entry` lines 251-270): truncated integer part, remainder
numerator (with the minus sign hoisted onto an empty integer part), and
denominator.  `BigInt` division truncates toward zero (`Int.tdiv`). -/
def fraction_parts (format : NumberFormat) (num : Int) (denom : Nat) :
    String × String × String :=
  let int := Int.tdiv num (denom : Int)
  let num1 := if int < 0 then -num - -int * (denom : Int) else num - int * (denom : Int)
  let p :=
    if int = 0 then
      if num1 < 0 then ("-", -num1) else ("", num1)
    else
      (format.format_bigint int ++ " ", num1)
  (p.1, format.format_bigint p.2, format.format_bigint (denom : Int))

/-- The width test of the fraction layout (`render_entry` lines 273-280):
integer-part width in the large font plus the wider of numerator and
denominator in the medium font. -/
def fraction_total_width (sans20 sans24 : Font) (format : NumberFormat)
    (num : Int) (denom : Nat) : Int :=
  let parts := fraction_parts format num denom
  sans24.width parts.1 + max (sans20.width parts.2.1) (sans20.width parts.2.2)

/-- The fraction layout branch of `render_entry` (lines 243-321, taken when
`total_width <= w`): draw the integer part, numerator, fraction rule and
denominator, then the alternate caption below if present; consumed height
is twice the medium-font height plus the caption height. -/
def render_fraction (sans16 sans20 sans24 : Font) (format : NumberFormat)
    (alt_string : Option String) (num : Int) (denom : Nat)
    (x w bottom : Int) : List DrawOp × Int :=
  let top := bottom - sans20.height * 2 -
    (if alt_string.isSome then sans16.height else 0)
  let parts := fraction_parts format num denom
  let int_width := sans24.width parts.1
  let num_width := sans20.width parts.2.1
  let denom_width := sans20.width parts.2.2
  let fraction_width := max num_width denom_width
  let y := top
  let ops : List DrawOp :=
    [DrawOp.text FontId.sans24 (x + w - (int_width + fraction_width + 4))
       (y + sans20.height - Int.tdiv sans24.height 2) parts.1,
     DrawOp.text FontId.sans20
       (x + w - (4 + Int.tdiv fraction_width 2) - Int.tdiv num_width 2) y parts.2.1,
     DrawOp.fill (x + w - (fraction_width + 4)) (y + sans20.height) fraction_width 1,
     DrawOp.text FontId.sans20
       (x + w - (4 + Int.tdiv fraction_width 2) - Int.tdiv denom_width 2)
       (y + sans20.height) parts.2.2]
  let y2 := y + sans20.height * 2
  let ops3 : List DrawOp :=
    match alt_string with
    | some alt => [DrawOp.text FontId.sans16 (x + w - (sans16.width alt + 4)) y2 alt]
    | none => []
  (ops ++ ops3, bottom - top)

/-- The non-fraction layout of `render_entry` (lines 329-361): draw the
primary string right-aligned in the large font, a cursor bar when an editor
is active, and the alternate caption below if present; consumed height is
the large-font height plus the caption height. -/
def render_plain (sans16 sans24 : Font) (editor : Option NumberEditor)
    (alt_string : Option String) (string : String) (x w bottom : Int) :
    List DrawOp × Int :=
  let top := bottom - sans24.height -
    (if alt_string.isSome then sans16.height else 0)
  let y := top
  let width := sans24.width string + 4
  let ops : List DrawOp :=
    [DrawOp.text FontId.sans24 (x + w - width) y string] ++
      (if editor.isSome then [DrawOp.fill (x + w - 3) y 3 sans24.height] else [])
  let y2 := y + sans24.height
  let ops3 : List DrawOp :=
    match alt_string with
    | some alt => [DrawOp.text FontId.sans16 (x + w - (sans16.width alt + 4)) y2 alt]
    | none => []
  (ops ++ ops3, bottom - top)

/-- The alternate-representation caption of `render_entry` (lines 210-237):
for large-magnitude integers, the other radix when `show_alt_hex` is on;
for rationals, the decimal expansion when `show_alt_float` is on; never for
decimals. -/
def alt_caption (to_decimal : Number → Decimal) (format : NumberFormat)
    (value : Number) : Option String :=
  match value with
  | Number.Integer int =>
    if format.show_alt_hex && (int ≤ -10 || 10 ≤ int) then
      if format.integer_radix = 10 then some (format.hex_format_number value)
      else if format.integer_radix = 16 then some (format.dec_format_number value)
      else none
    else none
  | Number.Rational _ _ =>
    if format.show_alt_float then
      some (format.dec_format_decimal (to_decimal value))
    else none
  | Number.Decimal _ => none

/-- Renderer `render_entry`: compute the primary string (editor text if an editor is
active, otherwise the formatted value) and the alternate caption; attempt
the fraction layout for rationals, falling back to the plain layout with
the caption discarded when it is too wide; return the emitted draw calls
and the consumed height. -/
def render_entry (sans16 sans20 sans24 : Font) (to_decimal : Number → Decimal)
    (format : NumberFormat) (editor : Option NumberEditor) (value : Number)
    (x w bottom : Int) : List DrawOp × Int :=
  let string :=
    match editor with
    | some ed => ed.to_str format
    | none => format.format_number value
  let alt_string := alt_caption to_decimal format value
  match value with
  | Number.Rational num denom =>
    if fraction_total_width sans20 sans24 format num denom ≤ w then
      render_fraction sans16 sans20 sans24 format alt_string num denom x w bottom
    else
      render_plain sans16 sans24 editor none string x w bottom
  | _ => render_plain sans16 sans24 editor alt_string string x w bottom

/-- A draw call in the medium font: emitted only by the fraction layout
(numerator and denominator), so its presence marks a drawn fraction. -/
def is_sans20_text : DrawOp → Bool
  | DrawOp.text FontId.sans20 _ _ _ => true
  | _ => false

/-- A draw call in the small font: emitted only for the alternate caption,
so its presence marks a drawn caption. -/
def is_sans16_text : DrawOp → Bool
  | DrawOp.text FontId.sans16 _ _ _ => true
  | _ => false

/-- Concrete font fixture standing in for the external `SANS_16` font in
closed evaluations: height 16, width = character count. -/
def testSans16 : Font := { height := 16, width := fun s => (s.length : Int) }

/-- Concrete font fixture standing in for the external `SANS_20` font in
closed evaluations: height 20, width = character count. -/
def testSans20 : Font := { height := 20, width := fun s => (s.length : Int) }

/-- Concrete font fixture standing in for the external `SANS_24` font in
closed evaluations: height 24, width = character count. -/
def testSans24 : Font := { height := 24, width := fun s => (s.length : Int) }

/-- Concrete stand-in for the external `Number::to_decimal` conversion in
closed evaluations (the renderer only passes its result to a formatting
capability, never inspects it). -/
def testToDecimal : Number → Decimal := fun _ => { repr := 0 }

/-- Concrete format fixture for closed evaluations: all alternate captions
off, each formatting capability returning a fixed one-glyph string. -/
def testFormat : NumberFormat :=
  { show_alt_hex := false, show_alt_float := false, integer_radix := 10,
    format_number := fun _ => "p", format_bigint := fun _ => "b",
    hex_format_number := fun _ => "h", dec_format_number := fun _ => "d",
    dec_format_decimal := fun _ => "f" }

/-- Stack fixture for closed evaluations: two committed entries (a rational
zero on top), no editor. -/
def sampleTwoEntries : Stack :=
  { entries := [Number.Integer 1, Number.Rational 0 2], editor := none, push_new_entry := false }

/-- Stack fixture with a single committed entry. -/
def sampleSingle : Stack :=
  { entries := [Number.Integer 7], editor := none, push_new_entry := false }

/-- Stack fixture with three committed entries. -/
def sampleThree : Stack :=
  { entries := [Number.Integer 1, Number.Integer 2, Number.Integer 3], editor := none,
    push_new_entry := false }

/-- The storage index computed for logical index 0 is always in bounds on a
non-empty stack, even under wrapping arithmetic. -/
lemma mod_idx_lt (len : Nat) (h : 1 ≤ len) : usizeSub (usizeSub len 1) 0 < len := by
  unfold usizeSub USIZE
  omega

/-- A non-empty `pop` succeeds, clears the editor, sets the flag, and
shrinks the storage to `max 1 (len - 1)` (the floor reinsertion). -/
lemma pop_exists (s : Stack) (h : 1 ≤ s.entries.length) :
    ∃ v s1, s.pop = some (v, s1) ∧ s1.editor = none ∧ s1.push_new_entry = true ∧
      s1.entries.length = max 1 (s.entries.length - 1) := by
  have hne : s.entries ≠ [] := by
    intro hh
    rw [hh] at h
    exact absurd h (by decide)
  refine ⟨s.entries.getLast hne,
    { entries := if s.entries.dropLast.length = 0
        then s.entries.dropLast ++ [Number.Integer 0] else s.entries.dropLast,
      editor := none, push_new_entry := true }, ?_, rfl, rfl, ?_⟩
  · simp [Stack.pop, List.getLast?_eq_getLast _ hne]
  · by_cases hl : s.entries.dropLast.length = 0
    · rw [if_pos hl]
      rw [List.length_dropLast] at hl
      simp only [List.length_append, List.length_dropLast, List.length_singleton]
      omega
    · rw [if_neg hl]
      rw [List.length_dropLast] at hl
      simp only [List.length_dropLast]
      omega

/-- Writing through `entry_mut(0)` on a non-empty stack succeeds and only
replaces the storage cell. -/
lemma entry_mut_zero_eq (s : Stack) (num : Number) (h : 1 ≤ s.entries.length) :
    s.entry_mut 0 num = some
      { s with entries := s.entries.set (usizeSub (usizeSub s.entries.length 1) 0) num } := by
  simp only [Stack.entry_mut]
  rw [if_pos (mod_idx_lt s.entries.length h)]

/-- Existential form of `entry_mut_zero_eq`: the write preserves length,
editor and flag. -/
lemma entry_mut_zero_exists (s : Stack) (num : Number) (h : 1 ≤ s.entries.length) :
    ∃ s1, s.entry_mut 0 num = some s1 ∧ s1.entries.length = s.entries.length ∧
      s1.editor = s.editor ∧ s1.push_new_entry = s.push_new_entry := by
  rw [entry_mut_zero_eq s num h]
  exact ⟨_, rfl, by simp, rfl, rfl⟩

/-- On a non-empty stack `set_top` succeeds, preserves the length, clears
the editor and sets the flag. -/
lemma set_top_exists (s : Stack) (num : Number) (h : 1 ≤ s.entries.length) :
    ∃ s1, s.set_top num = some s1 ∧ s1.entries.length = s.entries.length ∧
      s1.editor = none ∧ s1.push_new_entry = true := by
  refine ⟨{ entries := s.entries.set (usizeSub (usizeSub s.entries.length 1) 0) num,
            editor := none, push_new_entry := true }, ?_, by simp, rfl, rfl⟩
  rw [Stack.set_top, entry_mut_zero_eq s num h]
  rfl

/-- On a non-empty stack `top()` is defined. -/
lemma top_exists (s : Stack) (h : 1 ≤ s.entries.length) :
    ∃ t, s.top = some t := by
  rw [Stack.top, Stack.entry]
  have hlt := mod_idx_lt s.entries.length h
  rw [List.get?_eq_getElem?, List.getElem?_eq_getElem hlt]
  exact ⟨_, rfl⟩

/-- The pop loop of `replace_entries` keeps the stack non-empty. -/
lemma popLoop_ge_one : ∀ (n : Nat) (s : Stack), 1 ≤ s.entries.length →
    ∃ s1, popLoop n s = some s1 ∧ 1 ≤ s1.entries.length := by
  intro n
  induction n with
  | zero => exact fun s h => ⟨s, rfl, h⟩
  | succ n ih =>
    intro s h
    obtain ⟨v, s1, hpop, _, _, hlen⟩ := pop_exists s h
    obtain ⟨s2, hrec, h2⟩ := ih s1 (by omega)
    exact ⟨s2, by simp [popLoop, hpop, hrec], h2⟩

/-- Enough pops drive the stack down to the floor: a single entry. -/
lemma popLoop_to_one : ∀ (n : Nat) (s : Stack), 1 ≤ s.entries.length →
    s.entries.length ≤ n + 1 →
    ∃ s1, popLoop n s = some s1 ∧ s1.entries.length = 1 := by
  intro n
  induction n with
  | zero => exact fun s h1 h2 => ⟨s, rfl, by omega⟩
  | succ n ih =>
    intro s h1 h2
    obtain ⟨v, s1, hpop, _, _, hlen⟩ := pop_exists s h1
    obtain ⟨s2, hrec, h2⟩ := ih s1 (by omega) (by omega)
    exact ⟨s2, by simp [popLoop, hpop, hrec], h2⟩

/-- On a one-entry stack `set_top` leaves exactly the written value. -/
lemma set_top_single (s : Stack) (e num : Number) (hs : s.entries = [e]) :
    s.set_top num = some { entries := [num], editor := none, push_new_entry := true } := by
  have h1 : 1 ≤ s.entries.length := by simp [hs]
  rw [Stack.set_top, entry_mut_zero_eq s num h1]
  have hz : usizeSub (usizeSub s.entries.length 1) 0 = 0 := by
    rw [hs, List.length_singleton]
    decide
  rw [hz, hs]
  rfl

/-- Backspace is defined on every non-empty stack and keeps it non-empty. -/
lemma backspace_exists (s : Stack) (h : 1 ≤ s.entries.length) :
    ∃ s1, s.backspace = some s1 ∧ 1 ≤ s1.entries.length := by
  cases he : s.editor with
  | some ed =>
    simp only [Stack.backspace, he]
    by_cases hr : (ed.backspace).1 = true
    · rw [if_pos hr, entry_mut_zero_eq s _ h, Option.map_some']
      exact ⟨_, rfl, by simpa using h⟩
    · rw [if_neg hr]
      obtain ⟨s1, hset, hlen, _, _⟩ := set_top_exists s (Number.Integer 0) h
      rw [hset, Option.map_some']
      exact ⟨_, rfl, by simpa [hlen] using h⟩
  | none =>
    simp only [Stack.backspace, he]
    obtain ⟨v, s1, hpop, _, _, hlen⟩ := pop_exists s h
    have h1 : 1 ≤ s1.entries.length := by omega
    obtain ⟨t, htop⟩ := top_exists s1 h1
    rw [hpop, Option.some_bind, htop, Option.map_some']
    exact ⟨_, rfl, h1⟩

/-- Every one of the four claimed operations is defined on a non-empty
stack and keeps it non-empty. -/
lemma stepOp_preserves (s : Stack) (h : 1 ≤ s.entries.length) (op : Op) :
    ∃ s1, stepOp op s = some s1 ∧ 1 ≤ s1.entries.length := by
  cases op with
  | push n =>
    exact ⟨s.push n, rfl, by simp [Stack.push]⟩
  | pop =>
    obtain ⟨v, s1, hpop, _, _, hlen⟩ := pop_exists s h
    exact ⟨s1, by simp [stepOp, hpop], by omega⟩
  | backspace => exact backspace_exists s h
  | replace_entries c n =>
    obtain ⟨s1, hpl, h1⟩ := popLoop_ge_one (c - 1) s h
    obtain ⟨s2, hset, hlen, _, _⟩ := set_top_exists s1 n h1
    refine ⟨{ s2 with push_new_entry := true, editor := none }, ?_, ?_⟩
    · rw [stepOp, Stack.replace_entries, hpl, Option.some_bind, hset, Option.map_some']
    · simpa [hlen] using h1

/-- Starting the in-place editing path of `push_char` (no editor, flag
clear) succeeds and leaves the entry count unchanged. -/
lemma push_char_from_plain (s : Stack) (ch : Char) (h : 1 ≤ s.entries.length)
    (he : s.editor = none) (hf : s.push_new_entry = false) :
    ∃ s2, s.push_char ch = some s2 ∧ s2.entries.length = s.entries.length := by
  obtain ⟨s1, hset, hlen, he1, hf1⟩ := set_top_exists s (Number.Integer 0) h
  have h1 : 1 ≤ s1.entries.length := by omega
  simp only [Stack.push_char, he, hf, hset, Option.some_bind, Option.map_some',
    Bool.false_eq_true, if_false]
  by_cases hr : (NumberEditor.new_decimal.push_char ch).1 = true
  · rw [if_pos hr]
    obtain ⟨s3, hmut, hl3, _, _⟩ :=
      entry_mut_zero_exists
        { s1 with editor := some NumberEditor.new_decimal, push_new_entry := false }
        (NumberEditor.new_decimal.push_char ch).2.number (by simpa using h1)
    rw [hmut, Option.map_some']
    refine ⟨_, rfl, ?_⟩
    simp only at hl3
    simp at hl3 ⊢
    omega
  · rw [if_neg hr]
    exact ⟨_, rfl, by simpa using hlen⟩

/-- C1: for every sequence of push, pop, backspace and replace_entries
operations (any order, any arguments) starting from `Stack::new()`, every
call is defined and the invariant `len() ≥ 1` holds after it — in
particular after the whole sequence. -/
theorem stack_ops_len_ge_one (ops : List Op) :
    ∃ s, runOps ops = some s ∧ 1 ≤ s.len := by
  suffices hgen : ∀ (l : List Op) (s0 : Stack), 1 ≤ s0.entries.length →
      ∃ s, l.foldl (fun os op => os.bind (stepOp op)) (some s0) = some s ∧
        1 ≤ s.entries.length by
    exact hgen ops Stack.new (by simp [Stack.new])
  intro l
  induction l with
  | nil => exact fun s0 h0 => ⟨s0, rfl, h0⟩
  | cons op rest ih =>
    intro s0 h0
    obtain ⟨s1, hs1, h1⟩ := stepOp_preserves s0 h0 op
    obtain ⟨s2, hs2, h2⟩ := ih s1 h1
    refine ⟨s2, ?_, h2⟩
    rw [List.foldl_cons]
    rw [show (some s0).bind (stepOp op) = some s1 from hs1]
    exact hs2

/-- C3: on any stack with no active editor, `backspace` pops and then sets
`push_new_entry` to (stack size was greater than 1 before the pop) AND NOT
(the top exposed after the pop is an integer whose value is exactly zero);
`is_int_zero` is false on rational and decimal zeros, so they do not
suppress the flag. -/
theorem backspace_flag_rule (s : Stack) (h : s.editor = none) :
    s.backspace = s.pop.bind fun p => (p.2.top).map fun t =>
      { p.2 with push_new_entry := decide (1 < s.entries.length) && !(is_int_zero t) } := by
  simp only [Stack.backspace, h]
  cases hp : s.pop with
  | none => rfl
  | some p =>
    rw [Option.some_bind, Option.some_bind]
    cases ht : p.2.top with
    | none => rfl
    | some t =>
      rw [Option.map_some', Option.map_some']
      cases t with
      | Integer i =>
        by_cases hi : i = 0 <;> simp [is_int_zero, hi]
      | Rational n d => simp [is_int_zero]
      | Decimal d => simp [is_int_zero]

/-- Witness for C3 at a concrete two-entry stack whose exposed top after
the pop is a rational zero: the flag formula applies. -/
theorem backspace_flag_rule_witness :
    sampleTwoEntries.editor = none
    ∧ sampleTwoEntries.backspace
      = sampleTwoEntries.pop.bind fun p => (p.2.top).map fun t =>
          { p.2 with push_new_entry := decide (1 < sampleTwoEntries.entries.length) && !(is_int_zero t) } :=
  ⟨rfl, backspace_flag_rule sampleTwoEntries rfl⟩

/-- C5: popping a stack whose storage is exactly `[v]` returns `v` itself
and leaves exactly one entry, an integer zero, with the editor cleared and
the flag set. -/
theorem pop_single_entry (s : Stack) (v : Number) (h : s.entries = [v]) :
    s.pop = some (v, { entries := [Number.Integer 0], editor := none, push_new_entry := true }) := by
  simp [Stack.pop, h]

/-- Witness for C5 at a concrete single-entry stack holding the integer 7. -/
theorem pop_single_entry_witness :
    sampleSingle.entries = [Number.Integer 7]
    ∧ sampleSingle.pop = some (Number.Integer 7,
        { entries := [Number.Integer 0], editor := none, push_new_entry := true }) :=
  ⟨rfl, pop_single_entry sampleSingle (Number.Integer 7) rfl⟩

/-- C6: on any non-empty stack (of `usize`-representable length), `enter`
appends a copy of the top entry (the new top equals the old top, the length
grows by one) and leaves `push_new_entry = false`; consequently an
immediately following `push_char` overwrites the duplicated top instead of
pushing, leaving the length at its post-enter value. -/
theorem enter_duplicates_top (s : Stack) (ch : Char) (h : s.entries ≠ [])
    (hlen : s.entries.length < USIZE) :
    s.enter = some { entries := s.entries ++ [s.entries.getLast h], editor := none,
                     push_new_entry := false }
    ∧ Option.map (fun s2 => s2.entries.length)
        ((s.enter).bind fun s1 => s1.push_char ch) = some (s.entries.length + 1) := by
  have h1 : 1 ≤ s.entries.length := List.length_pos.2 h
  have hidx : usizeSub (usizeSub s.entries.length 1) 0 = s.entries.length - 1 := by
    unfold USIZE at hlen
    unfold usizeSub USIZE
    omega
  have htop : s.top = some (s.entries.getLast h) := by
    rw [Stack.top, Stack.entry, hidx, List.get?_eq_getElem?, ← List.getLast?_eq_getElem?,
      List.getLast?_eq_getLast _ h]
  have hent : s.enter = some { entries := s.entries ++ [s.entries.getLast h],
                               editor := none, push_new_entry := false } := by
    rw [Stack.enter, htop, Option.map_some']
    rfl
  refine ⟨hent, ?_⟩
  rw [hent, Option.some_bind]
  obtain ⟨s2, hpc, hl2⟩ := push_char_from_plain
    { entries := s.entries ++ [s.entries.getLast h], editor := none, push_new_entry := false }
    ch (by simp) rfl rfl
  rw [hpc, Option.map_some', hl2]
  simp

/-- Witness for C6 at a concrete single-entry stack and the digit 5. -/
theorem enter_duplicates_top_witness :
    sampleSingle.entries ≠ [] ∧ sampleSingle.entries.length < USIZE
    ∧ (sampleSingle.enter = some { entries := sampleSingle.entries ++
          [sampleSingle.entries.getLast (by decide)], editor := none, push_new_entry := false }
      ∧ Option.map (fun s2 => s2.entries.length)
          ((sampleSingle.enter).bind fun s1 => s1.push_char '5')
        = some (sampleSingle.entries.length + 1)) :=
  ⟨by decide, by decide, enter_duplicates_top sampleSingle '5' (by decide) (by decide)⟩

/-- C9: for indices within `0 ≤ i < len()` the accessors read and write the
storage at `len() - 1 - i`, which is in bounds, so the panic branch is
unreachable; for `i ≥ len()` the computed storage index is out of bounds
and the access is the panic-equivalent `none`, not an error value. -/
theorem entry_index_contract (s : Stack) (i : Nat) (num : Number)
    (hlen : s.entries.length < USIZE) (hi : i < USIZE) :
    (i < s.entries.length →
      s.entry i = s.entries.get? (s.entries.length - 1 - i) ∧
      (s.entry i).isSome = true ∧ (s.entry_mut i num).isSome = true)
    ∧ (s.entries.length ≤ i → s.entry i = none ∧ s.entry_mut i num = none) := by
  constructor
  · intro hbound
    have hidx : usizeSub (usizeSub s.entries.length 1) i = s.entries.length - 1 - i := by
      unfold USIZE at hlen hi
      unfold usizeSub USIZE
      omega
    have hin : s.entries.length - 1 - i < s.entries.length := by omega
    refine ⟨?_, ?_, ?_⟩
    · rw [Stack.entry, hidx]
    · rw [Stack.entry, hidx, List.get?_eq_getElem?, List.getElem?_eq_getElem hin]
      rfl
    · simp only [Stack.entry_mut, hidx]
      rw [if_pos hin]
      rfl
  · intro hbound
    rcases Nat.eq_zero_or_pos s.entries.length with h0 | h0
    · have hnil : s.entries = [] := List.length_eq_zero.1 h0
      constructor
      · rw [Stack.entry, hnil]
        simp
      · simp only [Stack.entry_mut]
        rw [if_neg (by omega)]
    · have hidx : s.entries.length ≤ usizeSub (usizeSub s.entries.length 1) i := by
        unfold USIZE at hlen hi
        unfold usizeSub USIZE
        omega
      constructor
      · rw [Stack.entry, List.get?_eq_getElem?]
        exact List.getElem?_eq_none hidx
      · simp only [Stack.entry_mut]
        rw [if_neg (by omega)]

/-- Witness for C9 at a concrete three-entry stack with the in-bounds
logical index 1. -/
theorem entry_index_contract_witness :
    sampleThree.entries.length < USIZE ∧ 1 < USIZE
    ∧ ((1 < sampleThree.entries.length →
          sampleThree.entry 1 = sampleThree.entries.get? (sampleThree.entries.length - 1 - 1) ∧
          (sampleThree.entry 1).isSome = true ∧
          (sampleThree.entry_mut 1 (Number.Integer 9)).isSome = true)
      ∧ (sampleThree.entries.length ≤ 1 →
          sampleThree.entry 1 = none ∧ sampleThree.entry_mut 1 (Number.Integer 9) = none)) :=
  ⟨by decide, by decide, entry_index_contract sampleThree 1 (Number.Integer 9) (by decide) (by decide)⟩

/-- C10: when `count` is at least the stack length, `replace_entries`
terminates (it is a total function) and leaves exactly one entry holding
the replacement value — the excess pops consume the zero entries that
`pop` keeps reinserting at the floor. -/
theorem replace_entries_overflow (s : Stack) (count : Nat) (num : Number)
    (h1 : 1 ≤ s.entries.length) (h2 : s.entries.length ≤ count) :
    ∃ s1, s.replace_entries count num = some s1 ∧ s1.entries = [num] := by
  obtain ⟨sp, hpl, hlp⟩ := popLoop_to_one (count - 1) s h1 (by omega)
  obtain ⟨e, he⟩ := List.length_eq_one.1 hlp
  have hst := set_top_single sp e num he
  refine ⟨{ entries := [num], editor := none, push_new_entry := true }, ?_, rfl⟩
  rw [Stack.replace_entries, hpl, Option.some_bind, hst, Option.map_some']

/-- Witness for C10: a three-entry stack collapsed by `replace_entries`
with count 5. -/
theorem replace_entries_overflow_witness :
    1 ≤ sampleThree.entries.length ∧ sampleThree.entries.length ≤ 5
    ∧ ∃ s1, sampleThree.replace_entries 5 (Number.Integer 9) = some s1
        ∧ s1.entries = [Number.Integer 9] :=
  ⟨by decide, by decide,
    replace_entries_overflow sampleThree 5 (Number.Integer 9) (by decide) (by decide)⟩

/-- Counterexample to C2 as stated: from the stack `[0]`, push(5), push(3),
replace_entries(2, 8) yields the two-entry stack `[0, 8]` — its length is
2, not 1, because `replace_entries(2, v)` pops only one entry before
overwriting the top. -/
theorem replace_entries_scenario_counterexample :
    ((Stack.new.push (Number.Integer 5)).push (Number.Integer 3)).replace_entries 2
        (Number.Integer 8)
      = some { entries := [Number.Integer 0, Number.Integer 8], editor := none,
               push_new_entry := true }
    ∧ ¬(Option.map (fun s => s.entries.length)
          (((Stack.new.push (Number.Integer 5)).push (Number.Integer 3)).replace_entries 2
            (Number.Integer 8))
        = some 1) := by
  decide

/-- C2 amended: from the stack `[0]`, push(5), push(3),
replace_entries(2, 8) results in a stack of length 2 whose top entry
(logical index 0) is 8 and whose remaining entry (logical index 1) is the
original 0. -/
theorem replace_entries_scenario :
    ∃ s, ((Stack.new.push (Number.Integer 5)).push (Number.Integer 3)).replace_entries 2
        (Number.Integer 8) = some s
      ∧ s.len = 2 ∧ s.entry 0 = some (Number.Integer 8) ∧ s.entry 1 = some (Number.Integer 0) :=
  ⟨{ entries := [Number.Integer 0, Number.Integer 8], editor := none, push_new_entry := true },
    by decide, by decide, by decide, by decide⟩

/-- Counterexample to C4 as stated: on a fresh stack the keystrokes 1, 2, 3
leave the single entry `123` — the length stays 1, not 2, because
`Stack::new()` starts with `push_new_entry = false`, so the first keystroke
overwrites the initial zero instead of pushing a new entry. -/
theorem push_char_digits_counterexample :
    ((Stack.new.push_char '1').bind fun s1 => (s1.push_char '2').bind fun s2 => s2.push_char '3')
      = some { entries := [Number.Integer 123], editor := some ⟨[1, 2, 3]⟩,
               push_new_entry := false }
    ∧ ¬(Option.map (fun s => s.entries.length)
          ((Stack.new.push_char '1').bind fun s1 =>
            (s1.push_char '2').bind fun s2 => s2.push_char '3')
        = some 2) := by
  decide

/-- C4 amended: on a fresh stack, push_char('1'), push_char('2'),
push_char('3') leaves the top entry equal to the integer 123 and the
length unchanged at 1 (the initial zero entry is overwritten because a
fresh stack has `push_new_entry = false`). -/
theorem push_char_digits :
    ∃ s, ((Stack.new.push_char '1').bind fun s1 =>
        (s1.push_char '2').bind fun s2 => s2.push_char '3') = some s
      ∧ s.top = some (Number.Integer 123) ∧ s.len = 1 :=
  ⟨{ entries := [Number.Integer 123], editor := some ⟨[1, 2, 3]⟩, push_new_entry := false },
    by decide, by decide, by decide⟩

/-- Properties of the plain (non-fraction) layout: its height is the
large-font height plus the caption height, it never emits medium-font
glyphs, and it emits small-font glyphs exactly when a caption is present. -/
lemma render_plain_props (s16 s24 : Font) (ed : Option NumberEditor) (alt : Option String)
    (str : String) (x w bottom : Int) :
    (render_plain s16 s24 ed alt str x w bottom).2
      = s24.height + (if alt.isSome then s16.height else 0)
    ∧ ((render_plain s16 s24 ed alt str x w bottom).1.any is_sans20_text) = false
    ∧ ((render_plain s16 s24 ed alt str x w bottom).1.any is_sans16_text) = alt.isSome := by
  refine ⟨?_, ?_, ?_⟩ <;>
    cases alt <;> cases ed <;>
      simp [render_plain, is_sans20_text, is_sans16_text] <;> omega

/-- Properties of the fraction layout: its height is twice the medium-font
height plus the caption height, it always emits medium-font glyphs, and it
emits small-font glyphs exactly when a caption is present. -/
lemma render_fraction_props (s16 s20 s24 : Font) (fmt : NumberFormat)
    (alt : Option String) (num : Int) (denom : Nat) (x w bottom : Int) :
    (render_fraction s16 s20 s24 fmt alt num denom x w bottom).2
      = s20.height * 2 + (if alt.isSome then s16.height else 0)
    ∧ ((render_fraction s16 s20 s24 fmt alt num denom x w bottom).1.any is_sans20_text) = true
    ∧ ((render_fraction s16 s20 s24 fmt alt num denom x w bottom).1.any is_sans16_text)
        = alt.isSome := by
  refine ⟨?_, ?_, ?_⟩ <;>
    cases alt <;>
      simp [render_fraction, is_sans20_text, is_sans16_text] <;> omega

/-- C7: when the fraction width test fails (integer-part glyph width plus
the wider of numerator and denominator exceeds the band width), the
fraction layout is abandoned and a rational entry is drawn as exactly one
large-font text of the normally formatted (decimal) string, with no
alternate caption and no fraction glyphs; integer and decimal values never
emit fraction (medium-font) glyphs at all. -/
theorem render_rational_fallback (s16 s20 s24 : Font) (td : Number → Decimal)
    (fmt : NumberFormat) (num : Int) (denom : Nat) (ed : Option NumberEditor)
    (i : Int) (d : Decimal) (x w bottom : Int)
    (h : w < fraction_total_width s20 s24 fmt num denom) :
    (render_entry s16 s20 s24 td fmt none (Number.Rational num denom) x w bottom).1
      = [DrawOp.text FontId.sans24
          (x + w - (s24.width (fmt.format_number (Number.Rational num denom)) + 4))
          (bottom - s24.height) (fmt.format_number (Number.Rational num denom))]
    ∧ ((render_entry s16 s20 s24 td fmt ed (Number.Integer i) x w bottom).1.any
        is_sans20_text) = false
    ∧ ((render_entry s16 s20 s24 td fmt ed (Number.Decimal d) x w bottom).1.any
        is_sans20_text) = false := by
  refine ⟨?_, ?_, ?_⟩
  · simp only [render_entry, if_neg (not_le.2 h)]
    simp [render_plain]
  · cases ed with
    | none =>
      simpa only [render_entry] using
        (render_plain_props s16 s24 none (alt_caption td fmt (Number.Integer i))
          (fmt.format_number (Number.Integer i)) x w bottom).2.1
    | some e =>
      simpa only [render_entry] using
        (render_plain_props s16 s24 (some e) (alt_caption td fmt (Number.Integer i))
          (e.to_str fmt) x w bottom).2.1
  · cases ed with
    | none =>
      simpa only [render_entry] using
        (render_plain_props s16 s24 none (alt_caption td fmt (Number.Decimal d))
          (fmt.format_number (Number.Decimal d)) x w bottom).2.1
    | some e =>
      simpa only [render_entry] using
        (render_plain_props s16 s24 (some e) (alt_caption td fmt (Number.Decimal d))
          (e.to_str fmt) x w bottom).2.1

/-- Witness for C7 at concrete fonts, format and the rational 3/4 in a
zero-width band. -/
theorem render_rational_fallback_witness :
    (0 : Int) < fraction_total_width testSans20 testSans24 testFormat 3 4
    ∧ ((render_entry testSans16 testSans20 testSans24 testToDecimal testFormat none
          (Number.Rational 3 4) 0 0 50).1
        = [DrawOp.text FontId.sans24
            (0 + 0 - (testSans24.width (testFormat.format_number (Number.Rational 3 4)) + 4))
            (50 - testSans24.height) (testFormat.format_number (Number.Rational 3 4))]
      ∧ ((render_entry testSans16 testSans20 testSans24 testToDecimal testFormat (some ⟨[5]⟩)
            (Number.Integer 7) 0 0 50).1.any is_sans20_text) = false
      ∧ ((render_entry testSans16 testSans20 testSans24 testToDecimal testFormat (some ⟨[5]⟩)
            (Number.Decimal ⟨1⟩) 0 0 50).1.any is_sans20_text) = false) :=
  ⟨by decide,
    render_rational_fallback testSans16 testSans20 testSans24 testToDecimal testFormat
      3 4 (some ⟨[5]⟩) 7 ⟨1⟩ 0 0 50 (by decide)⟩

/-- Counterexample to C8 as stated: at concrete fonts (heights 16, 20, 24)
a fitting fraction layout for 1/2 with no caption consumes twice the
MEDIUM-font height (40), not twice the large-font height (48) as the
claim's parenthetical asserts. -/
theorem render_height_counterexample :
    (render_entry testSans16 testSans20 testSans24 testToDecimal testFormat none
        (Number.Rational 1 2) 0 100 50).2 = testSans20.height * 2
    ∧ ((render_entry testSans16 testSans20 testSans24 testToDecimal testFormat none
        (Number.Rational 1 2) 0 100 50).1.any is_sans20_text) = true
    ∧ ((render_entry testSans16 testSans20 testSans24 testToDecimal testFormat none
        (Number.Rational 1 2) 0 100 50).1.any is_sans16_text) = false
    ∧ ¬((render_entry testSans16 testSans20 testSans24 testToDecimal testFormat none
        (Number.Rational 1 2) 0 100 50).2 = testSans24.height * 2) := by
  decide

/-- C8 amended: the height returned by the entry renderer equals the sum of
the vertical extents drawn — twice the medium-glyph height when fraction
glyphs were drawn, the large-glyph height otherwise, plus the small-glyph
height when an alternate caption was drawn. -/
theorem render_height_sum (s16 s20 s24 : Font) (td : Number → Decimal) (fmt : NumberFormat)
    (ed : Option NumberEditor) (value : Number) (x w bottom : Int) :
    (render_entry s16 s20 s24 td fmt ed value x w bottom).2
      = (if ((render_entry s16 s20 s24 td fmt ed value x w bottom).1.any is_sans20_text) = true
          then s20.height * 2 else s24.height)
        + (if ((render_entry s16 s20 s24 td fmt ed value x w bottom).1.any is_sans16_text) = true
            then s16.height else 0) := by
  rcases value with i | ⟨num, denom⟩ | d
  · cases ed with
    | none =>
      rcases render_plain_props s16 s24 none (alt_caption td fmt (Number.Integer i))
        (fmt.format_number (Number.Integer i)) x w bottom with ⟨hh, h20, h16⟩
      simp only [render_entry] at hh h20 h16 ⊢
      rw [hh]
      simp only [h20, h16]
      simp
    | some e =>
      rcases render_plain_props s16 s24 (some e) (alt_caption td fmt (Number.Integer i))
        (e.to_str fmt) x w bottom with ⟨hh, h20, h16⟩
      simp only [render_entry] at hh h20 h16 ⊢
      rw [hh]
      simp only [h20, h16]
      simp
  · by_cases hfit : fraction_total_width s20 s24 fmt num denom ≤ w
    · rcases render_fraction_props s16 s20 s24 fmt
        (alt_caption td fmt (Number.Rational num denom)) num denom x w bottom with ⟨hh, h20, h16⟩
      simp only [render_entry, if_pos hfit]
      rw [hh]
      simp only [h20, h16]
      simp
    · cases ed with
      | none =>
        rcases render_plain_props s16 s24 none (none : Option String)
          (fmt.format_number (Number.Rational num denom)) x w bottom with ⟨hh, h20, h16⟩
        simp only [render_entry, if_neg hfit]
        rw [hh]
        simp only [h20, h16]
        simp
      | some e =>
        rcases render_plain_props s16 s24 (some e) (none : Option String)
          (e.to_str fmt) x w bottom with ⟨hh, h20, h16⟩
        simp only [render_entry, if_neg hfit]
        rw [hh]
        simp only [h20, h16]
        simp
  · cases ed with
    | none =>
      rcases render_plain_props s16 s24 none (alt_caption td fmt (Number.Decimal d))
        (fmt.format_number (Number.Decimal d)) x w bottom with ⟨hh, h20, h16⟩
      simp only [render_entry] at hh h20 h16 ⊢
      rw [hh]
      simp only [h20, h16]
      simp
    | some e =>
      rcases render_plain_props s16 s24 (some e) (alt_caption td fmt (Number.Decimal d))
        (e.to_str fmt) x w bottom with ⟨hh, h20, h16⟩
      simp only [render_entry] at hh h20 h16 ⊢
      rw [hh]
      simp only [h20, h16]
      simp
